import Mathlib

/-!
Shallow embedding of the employee-pair overlap application
(`src/src/App.tsx`, and the earlier variant kept in `src/unnamed/part_000`).

Dates are embedded as JavaScript time values: an `Int` counting milliseconds.
`new Date(year, monthIndex, day)` is embedded by `jsDateMs`, including the
ECMAScript rules that a year argument in `0..99` means `1900 + year` and that
out-of-range month/day arguments roll over into adjacent months and years.
The embedding places all constructed dates at midnight with a fixed zero
UTC offset; the code only ever subtracts two time values, so a fixed offset
cancels (daylight-saving shifts are not modelled).

The two host primitives whose behaviour the code merely consumes are kept
abstract in `JSEnv`: `new Date()` (the wall clock, field `todayMs`) and the
free-form string acceptor `new Date(string)` used as a last-resort fallback
(field `freeParse`).

`Number(string)` is embedded by `jsNumber` for the decimal-integer fragment
of the ECMAScript grammar (optional sign, digit run, surrounding whitespace,
empty string meaning `0`); fractional, exponent, hexadecimal and `Infinity`
forms do not occur in the integer id columns this program reads and are not
modelled (they are mapped to NaN, i.e. `none`).
-/

namespace Employees

/-! ### Host string primitives -/

/-- Characters stripped by `String.prototype.trim` (the whitespace and line
terminator sets of ECMAScript, restricted to the code points that can occur
in this program's CSV tokens). -/
def isJsSpaceChar (c : Char) : Bool :=
  c = ' ' || c = '\t' || c = '\n' || c = '\r' ||
  c = '\x0b' || c = '\x0c' || c = ' ' || c = '﻿'

/-- Embedding of `String.prototype.trim`. -/
def jsTrim (s : String) : String :=
  String.mk (((s.data.dropWhile isJsSpaceChar).reverse.dropWhile isJsSpaceChar).reverse)

/-- Embedding of `String.prototype.toLowerCase` (ASCII range). -/
def jsToLowerCase (s : String) : String :=
  String.mk (s.data.map Char.toLower)

/-- Numeric value of a digit character. -/
def digitVal (c : Char) : Int :=
  (c.toNat : Int) - 48

/-- Value of a run of decimal digit characters. -/
def digitsToInt (ds : List Char) : Int :=
  ds.foldl (fun a c => a * 10 + digitVal c) 0

/-- Embedding of `Number(string)` on the decimal-integer fragment:
whitespace is trimmed, the empty string is `0`, an optional sign precedes a
non-empty digit run; everything else is NaN (`none`). -/
def jsNumber (s : String) : Option Int :=
  let t := jsTrim s
  if t = "" then some 0
  else
    match t.data with
    | '-' :: ds => if ds ≠ [] ∧ ds.all Char.isDigit then some (-(digitsToInt ds)) else none
    | '+' :: ds => if ds ≠ [] ∧ ds.all Char.isDigit then some (digitsToInt ds) else none
    | ds => if ds.all Char.isDigit then some (digitsToInt ds) else none

/-! ### Host date primitives -/

/-- Milliseconds per day, the divisor in `differenceInDays`. -/
def msPerDay : Int := 86400000

/-- Days from 1970-01-01 to year `y`, month `m ∈ [1,12]`, day `d`
(proleptic Gregorian; the civil-from-days algorithm with floor division). -/
def daysFromCivil (y m d : Int) : Int :=
  let y2 := if m ≤ 2 then y - 1 else y
  let era := Int.fdiv y2 400
  let yoe := y2 - era * 400
  let mp := Int.emod (m + 9) 12
  let doy := Int.fdiv (153 * mp + 2) 5 + d - 1
  let doe := yoe * 365 + Int.fdiv yoe 4 - Int.fdiv yoe 100 + doy
  era * 146097 + doe - 719468

/-- Embedding of `new Date(year, monthIndex, day).getTime()`: a year in
`0..99` means `1900 + year`, the month index rolls over into adjacent years
(`fdiv`/`emod` by 12), and the day offsets freely from day 1 of that month.
The arguments produced by this program are bounded (four-digit years,
two-digit months and days), so the result is always inside the ECMAScript
time range and never NaN. -/
def jsDateMs (year monthIndex day : Int) : Int :=
  let y := if 0 ≤ year ∧ year ≤ 99 then 1900 + year else year
  let ym := y + Int.fdiv monthIndex 12
  let mn := Int.emod monthIndex 12
  (daysFromCivil ym (mn + 1) 1 + (day - 1)) * msPerDay

/-- The host facilities `parseDate` consumes but does not define:
`new Date()` (today's wall clock, as a time value) and the free-form
fallback `new Date(string)` (`none` when that constructor yields NaN). -/
structure JSEnv where
  todayMs : Int
  freeParse : String → Option Int

/-! ### `datePatterns` and `parseDate` (App.tsx lines 24–75) -/

/-- Test of `/^\d{4}-\d{2}-\d{2}$/` (pattern 1, `yyyy-MM-dd`). -/
def testISO (s : String) : Bool :=
  match s.data with
  | [a, b, c, d, e, f, g, h, i, j] =>
    a.isDigit && b.isDigit && c.isDigit && d.isDigit && e = '-' &&
    f.isDigit && g.isDigit && h = '-' && i.isDigit && j.isDigit
  | _ => false

/-- Test of `/^\d{2}\/\d{2}\/\d{4}$/` (patterns 2 and 4 share this shape). -/
def testSlash (s : String) : Bool :=
  match s.data with
  | [a, b, c, d, e, f, g, h, i, j] =>
    a.isDigit && b.isDigit && c = '/' && d.isDigit && e.isDigit &&
    f = '/' && g.isDigit && h.isDigit && i.isDigit && j.isDigit
  | _ => false

/-- Test of `/^\d{2}-\d{2}-\d{4}$/` (pattern 3, `dd-MM-yyyy`). -/
def testDashDMY (s : String) : Bool :=
  match s.data with
  | [a, b, c, d, e, f, g, h, i, j] =>
    a.isDigit && b.isDigit && c = '-' && d.isDigit && e.isDigit &&
    f = '-' && g.isDigit && h.isDigit && i.isDigit && j.isDigit
  | _ => false

/-- Pattern 1 body: split on `-`, `new Date(p0, p1 - 1, p2)`. -/
def parseISO (s : String) : Option Int :=
  match s.data with
  | [a, b, c, d, e, f, g, h, i, j] =>
    if a.isDigit ∧ b.isDigit ∧ c.isDigit ∧ d.isDigit ∧ e = '-' ∧
        f.isDigit ∧ g.isDigit ∧ h = '-' ∧ i.isDigit ∧ j.isDigit then
      some (jsDateMs (digitVal a * 1000 + digitVal b * 100 + digitVal c * 10 + digitVal d)
        (digitVal f * 10 + digitVal g - 1) (digitVal i * 10 + digitVal j))
    else none
  | _ => none

/-- Pattern 2 body: split on `/`, `new Date(p2, p0 - 1, p1)` (`MM/dd/yyyy`). -/
def parseSlashMDY (s : String) : Option Int :=
  match s.data with
  | [a, b, c, d, e, f, g, h, i, j] =>
    if a.isDigit ∧ b.isDigit ∧ c = '/' ∧ d.isDigit ∧ e.isDigit ∧
        f = '/' ∧ g.isDigit ∧ h.isDigit ∧ i.isDigit ∧ j.isDigit then
      some (jsDateMs (digitVal g * 1000 + digitVal h * 100 + digitVal i * 10 + digitVal j)
        (digitVal a * 10 + digitVal b - 1) (digitVal d * 10 + digitVal e))
    else none
  | _ => none

/-- Pattern 3 body: split on `-`, `new Date(p2, p1 - 1, p0)` (`dd-MM-yyyy`). -/
def parseDashDMY (s : String) : Option Int :=
  match s.data with
  | [a, b, c, d, e, f, g, h, i, j] =>
    if a.isDigit ∧ b.isDigit ∧ c = '-' ∧ d.isDigit ∧ e.isDigit ∧
        f = '-' ∧ g.isDigit ∧ h.isDigit ∧ i.isDigit ∧ j.isDigit then
      some (jsDateMs (digitVal g * 1000 + digitVal h * 100 + digitVal i * 10 + digitVal j)
        (digitVal d * 10 + digitVal e - 1) (digitVal a * 10 + digitVal b))
    else none
  | _ => none

/-- Pattern 4 body: split on `/`, `new Date(p2, p1 - 1, p0)` (`dd/MM/yyyy`). -/
def parseSlashDMY (s : String) : Option Int :=
  match s.data with
  | [a, b, c, d, e, f, g, h, i, j] =>
    if a.isDigit ∧ b.isDigit ∧ c = '/' ∧ d.isDigit ∧ e.isDigit ∧
        f = '/' ∧ g.isDigit ∧ h.isDigit ∧ i.isDigit ∧ j.isDigit then
      some (jsDateMs (digitVal g * 1000 + digitVal h * 100 + digitVal i * 10 + digitVal j)
        (digitVal d * 10 + digitVal e - 1) (digitVal a * 10 + digitVal b))
    else none
  | _ => none

/-- The ordered `datePatterns` array: each entry is the regex test and the
parser body (the parser never yields NaN on a tested string, because its
arguments are bounded digits — see `jsDateMs`). -/
def datePatterns : List ((String → Bool) × (String → Option Int)) :=
  [(testISO, parseISO), (testSlash, parseSlashMDY),
   (testDashDMY, parseDashDMY), (testSlash, parseSlashDMY)]

/-- The `for (const { regex, parser } of datePatterns)` loop: first pattern
whose test passes and whose parser yields a valid date wins. -/
def runPatterns : List ((String → Bool) × (String → Option Int)) → String → Option Int
  | [], _ => none
  | (t, p) :: rest, s =>
    match (if t s then p s else none) with
    | some d => some d
    | none => runPatterns rest s

/-- `parseDate` (App.tsx lines 59–75): empty or case-insensitive `"null"`
yields today; otherwise trim, try the patterns in order, then fall back to
the free-form `new Date(string)`. -/
def parseDate (env : JSEnv) (dateStr : String) : Option Int :=
  if dateStr = "" ∨ jsToLowerCase dateStr = "null" then
    some env.todayMs
  else
    let s := jsTrim dateStr
    match runPatterns datePatterns s with
    | some d => some d
    | none => env.freeParse s

/-- `differenceInDays` (App.tsx lines 89–92):
`floor(|t2 - t1| / msPerDay)`. -/
def differenceInDays (date1 date2 : Int) : Int :=
  Int.fdiv ((date2 - date1).natAbs : Int) msPerDay

/-! ### Data model (App.tsx lines 4–22) -/

/-- `EmployeeRecord`: one validated row. -/
structure EmployeeRecord where
  EmpID : Int
  ProjectID : Int
  DateFrom : Int
  DateTo : Int
deriving DecidableEq

/-- `PairProjectDays`: per-(pair, project) aggregate. -/
structure PairProjectDays where
  emp1 : Int
  emp2 : Int
  projectId : Int
  totalDaysWorked : Int
deriving DecidableEq

/-- `PairTotalDays`: per-pair aggregate across all projects. -/
structure PairTotalDays where
  emp1 : Int
  emp2 : Int
  totalDaysWorked : Int
deriving DecidableEq

/-! ### Validation stage (App.tsx lines 99–114) -/

/-- The `for (const row of data)` validation loop of `processData`: rows
shorter than 4 tokens are skipped; otherwise tokens 0 and 1 go through
`Number` and tokens 2 and 3 through `parseDate`, and any NaN or null result
aborts the whole batch with the error message. -/
def validateRows (env : JSEnv) : List (List String) → Except String (List EmployeeRecord)
  | [] => .ok []
  | row :: rest =>
    if row.length < 4 then validateRows env rest
    else
      match jsNumber (row.getD 0 ""), jsNumber (row.getD 1 ""),
          parseDate env (row.getD 2 ""), parseDate env (row.getD 3 "") with
      | some e, some p, some df, some dt =>
        (validateRows env rest).map (fun rs => ⟨e, p, df, dt⟩ :: rs)
      | _, _, _, _ => .error "Invalid data format in CSV."

/-! ### Overlap computation and aggregation (App.tsx lines 116–163) -/

/-- One contribution produced by the inner loop body for a pair of records. -/
structure Contribution where
  emp1 : Int
  emp2 : Int
  projectId : Int
  days : Int
deriving DecidableEq

/-- The body of the double loop for a record pair `(p1, p2)`: same project,
distinct employees, `start = max(DateFrom)`, `end = min(DateTo)`, and when
`end >= start` a contribution of `differenceInDays(end, start) + 1` days for
the canonically ordered pair. -/
def pairContribution (p1 p2 : EmployeeRecord) : Option Contribution :=
  if p1.ProjectID = p2.ProjectID ∧ p1.EmpID ≠ p2.EmpID then
    let start := if p1.DateFrom > p2.DateFrom then p1.DateFrom else p2.DateFrom
    let stop := if p1.DateTo < p2.DateTo then p1.DateTo else p2.DateTo
    if stop ≥ start then
      some { emp1 := min p1.EmpID p2.EmpID, emp2 := max p1.EmpID p2.EmpID,
             projectId := p1.ProjectID, days := differenceInDays stop start + 1 }
    else none
  else none

/-- The contributions the `i < j` double loop emits, in loop order: record
`i` against every later record, then the rest. -/
def contributions : List EmployeeRecord → List Contribution
  | [] => []
  | r :: rest => rest.filterMap (fun q => pairContribution r q) ++ contributions rest

/-- Lookup in an insertion-ordered association list (the observable content
of a JS `Map`). -/
def alookup {β : Type} : List (String × β) → String → Option β
  | [], _ => none
  | (k, v) :: m, key => if k = key then some v else alookup m key

/-- The `map.has(key) ? bump existing : map.set(key, fresh)` step shared by
both aggregation maps; a JS `Map` keeps insertion order, so a fresh entry
goes to the back and a bump edits in place. -/
def mapUpsert {β : Type} (m : List (String × β)) (key : String) (bump : β → β)
    (fresh : β) : List (String × β) :=
  if (alookup m key).isSome then
    m.map (fun kv => if kv.1 = key then (kv.1, bump kv.2) else kv)
  else m ++ [(key, fresh)]

/-- The template-literal key `` `${emp1}-${emp2}-${projectId}` ``. -/
def projKey (c : Contribution) : String :=
  toString c.emp1 ++ "-" ++ toString c.emp2 ++ "-" ++ toString c.projectId

/-- The template-literal key `` `${emp1}-${emp2}` ``. -/
def totKey (c : Contribution) : String :=
  toString c.emp1 ++ "-" ++ toString c.emp2

/-- The `pairMap` update for one contribution (App.tsx lines 134–146). -/
def applyProj (m : List (String × PairProjectDays)) (c : Contribution) :
    List (String × PairProjectDays) :=
  mapUpsert m (projKey c)
    (fun e => { e with totalDaysWorked := e.totalDaysWorked + c.days })
    ⟨c.emp1, c.emp2, c.projectId, c.days⟩

/-- The `pairMapTotal` update for one contribution (App.tsx lines 148–159). -/
def applyTot (m : List (String × PairTotalDays)) (c : Contribution) :
    List (String × PairTotalDays) :=
  mapUpsert m (totKey c)
    (fun e => { e with totalDaysWorked := e.totalDaysWorked + c.days })
    ⟨c.emp1, c.emp2, c.days⟩

/-- Both aggregation maps after the double loop. -/
structure PairMaps where
  pairMap : List (String × PairProjectDays)
  pairMapTotal : List (String × PairTotalDays)

/-- Folding the loop's contributions through both map updates. -/
def buildMaps (cs : List Contribution) : PairMaps :=
  cs.foldl (fun ms c => ⟨applyProj ms.pairMap c, applyTot ms.pairMapTotal c⟩) ⟨[], []⟩

/-! ### Top-pair selection (App.tsx lines 168–193) -/

/-- `Math.max(...totals.map(m => m.totalDaysWorked))`: `⊥` models the
`-Infinity` that `Math.max()` returns on an empty spread. -/
def highestMaxScore (totals : List PairTotalDays) : WithBot Int :=
  (totals.map (fun m => m.totalDaysWorked)).maximum

/-- The totals tied for the maximum (`filter (=== highestMaxScore)`); empty
when `totals` is empty because no finite total equals `-Infinity`. -/
def pairMapTotalResult (totals : List PairTotalDays) : List PairTotalDays :=
  totals.filter (fun m => decide ((m.totalDaysWorked : WithBot Int) = highestMaxScore totals))

/-- The final filter: keep the per-project entries whose employee pair is
among the winning totals (App.tsx lines 183–187). -/
def selectPairs (pm : List PairProjectDays) (totals : List PairTotalDays) :
    List PairProjectDays :=
  pm.filter (fun ppd =>
    (pairMapTotalResult totals).any (fun ptd =>
      decide (ptd.emp1 = ppd.emp1 ∧ ptd.emp2 = ppd.emp2)))

/-- What one `processData` run produces: the two maps' value arrays and the
filtered list handed to `setPairs`. An invalid row instead aborts the run
with the error message and no rows. -/
structure ProcessResult where
  pairMap : List PairProjectDays
  pairMapTotal : List PairTotalDays
  pairs : List PairProjectDays
deriving DecidableEq

/-- `processData` (App.tsx lines 99–194), end to end. -/
def processData (env : JSEnv) (data : List (List String)) : Except String ProcessResult :=
  (validateRows env data).map fun records =>
    let ms := buildMaps (contributions records)
    let pmVals := ms.pairMap.map Prod.snd
    let ptVals := ms.pairMapTotal.map Prod.snd
    ⟨pmVals, ptVals, selectPairs pmVals ptVals⟩

/-! ### The earlier variant (`src/unnamed/part_000`)

Its `datePatterns`, `parseDate`, `parseCSV`, `differenceInDays` and
validation loop are character-for-character the code above; the definitions
below re-translate its validation, overlap and aggregation stages (lines
94–140), which build a single `pairMap` and surface all of it unfiltered. -/

/-- The validation loop of `part_000` (lines 97–109; identical text to the
App.tsx loop). -/
def validateRowsV0 (env : JSEnv) : List (List String) → Except String (List EmployeeRecord)
  | [] => .ok []
  | row :: rest =>
    if row.length < 4 then validateRowsV0 env rest
    else
      match jsNumber (row.getD 0 ""), jsNumber (row.getD 1 ""),
          parseDate env (row.getD 2 ""), parseDate env (row.getD 3 "") with
      | some e, some p, some df, some dt =>
        (validateRowsV0 env rest).map (fun rs => ⟨e, p, df, dt⟩ :: rs)
      | _, _, _, _ => .error "Invalid data format in CSV."

/-- The loop body of `part_000` (lines 117–124; identical text). -/
def pairContributionV0 (p1 p2 : EmployeeRecord) : Option Contribution :=
  if p1.ProjectID = p2.ProjectID ∧ p1.EmpID ≠ p2.EmpID then
    let start := if p1.DateFrom > p2.DateFrom then p1.DateFrom else p2.DateFrom
    let stop := if p1.DateTo < p2.DateTo then p1.DateTo else p2.DateTo
    if stop ≥ start then
      some { emp1 := min p1.EmpID p2.EmpID, emp2 := max p1.EmpID p2.EmpID,
             projectId := p1.ProjectID, days := differenceInDays stop start + 1 }
    else none
  else none

/-- The `i < j` enumeration of `part_000` (lines 113–114). -/
def contributionsV0 : List EmployeeRecord → List Contribution
  | [] => []
  | r :: rest => rest.filterMap (fun q => pairContributionV0 r q) ++ contributionsV0 rest

/-- The single `pairMap` update of `part_000` (lines 125–136). -/
def applyProjV0 (m : List (String × PairProjectDays)) (c : Contribution) :
    List (String × PairProjectDays) :=
  mapUpsert m (projKey c)
    (fun e => { e with totalDaysWorked := e.totalDaysWorked + c.days })
    ⟨c.emp1, c.emp2, c.projectId, c.days⟩

/-- `processData` of `part_000` (lines 94–145): validate, aggregate one map,
surface all of its values (`setPairs(Array.from(pairMap.values()))`). -/
def processDataV0 (env : JSEnv) (data : List (List String)) :
    Except String (List PairProjectDays) :=
  (validateRowsV0 env data).map fun records =>
    ((contributionsV0 records).foldl applyProjV0 []).map Prod.snd

/-! ### Observations used to state the theorems -/

/-- The aggregated day count stored in a `pairMap` under a key. -/
def projDays (m : List (String × PairProjectDays)) (k : String) : Option Int :=
  (alookup m k).map (fun e => e.totalDaysWorked)

/-- The aggregated day count stored in a `pairMapTotal` under a key. -/
def totDays (m : List (String × PairTotalDays)) (k : String) : Option Int :=
  (alookup m k).map (fun e => e.totalDaysWorked)

/-- Total days of the contributions that target `pairMap` key `k`. -/
def sumKeyProj (k : String) (cs : List Contribution) : Int :=
  ((cs.filter (fun c => decide (projKey c = k))).map (fun c => c.days)).sum

/-- Total days of the contributions that target `pairMapTotal` key `k`. -/
def sumKeyTot (k : String) (cs : List Contribution) : Int :=
  ((cs.filter (fun c => decide (totKey c = k))).map (fun c => c.days)).sum

/-- A row (of length at least 4) that the validation stage must refuse:
a NaN employee or project id, or a date token neither format-parsed nor
accepted by the free-form fallback. -/
def badRow (env : JSEnv) (row : List String) : Prop :=
  jsNumber (row.getD 0 "") = none ∨ jsNumber (row.getD 1 "") = none ∨
  parseDate env (row.getD 2 "") = none ∨ parseDate env (row.getD 3 "") = none

/-- A fixed host environment for the concrete instances below: the wall
clock at the epoch and a free-form fallback that accepts nothing. -/
def testEnv : JSEnv := ⟨0, fun _ => none⟩

/-! ## General lemmas -/

lemma ite_gt_eq_max (a b : Int) : (if a > b then a else b) = max a b := by
  rcases le_or_lt a b with h | h
  · simp [not_lt.mpr h, max_eq_right h]
  · simp [h, max_eq_left h.le]

lemma ite_lt_eq_min (a b : Int) : (if a < b then a else b) = min a b := by
  rcases le_or_lt b a with h | h
  · simp [not_lt.mpr h, min_eq_right h]
  · simp [h, min_eq_left h.le]

/-- The loop body in the canonical `max`/`min` form. -/
lemma pairContribution_eq (p1 p2 : EmployeeRecord) :
    pairContribution p1 p2 =
      if p1.ProjectID = p2.ProjectID ∧ p1.EmpID ≠ p2.EmpID then
        if max p1.DateFrom p2.DateFrom ≤ min p1.DateTo p2.DateTo then
          some ⟨min p1.EmpID p2.EmpID, max p1.EmpID p2.EmpID, p1.ProjectID,
            differenceInDays (min p1.DateTo p2.DateTo) (max p1.DateFrom p2.DateFrom) + 1⟩
        else none
      else none := by
  unfold pairContribution
  rw [ite_gt_eq_max, ite_lt_eq_min]

/-- Claim C1: for two validated assignments on the same project with
distinct employee ids, the overlap contribution of the loop body is
`differenceInDays(min(a2,b2), max(a1,b1)) + 1` days when
`max(a1,b1) ≤ min(a2,b2)`, and no contribution otherwise. -/
theorem claim_c1_overlap_contribution (p1 p2 : EmployeeRecord)
    (hproj : p1.ProjectID = p2.ProjectID) (hemp : p1.EmpID ≠ p2.EmpID) :
    pairContribution p1 p2 =
      (if max p1.DateFrom p2.DateFrom ≤ min p1.DateTo p2.DateTo then
        some ⟨min p1.EmpID p2.EmpID, max p1.EmpID p2.EmpID, p1.ProjectID,
          differenceInDays (min p1.DateTo p2.DateTo) (max p1.DateFrom p2.DateFrom) + 1⟩
      else none) := by
  rw [pairContribution_eq, if_pos ⟨hproj, hemp⟩]

/-- Witness for C1, on the worked example of the spec: assignments of
employees 1 and 2 on project 1 over 2024-01-01..10 and 2024-01-05..15
overlap on 6 days. -/
theorem claim_c1_overlap_contribution_witness :
    pairContribution ⟨1, 1, jsDateMs 2024 0 1, jsDateMs 2024 0 10⟩
        ⟨2, 1, jsDateMs 2024 0 5, jsDateMs 2024 0 15⟩ =
      some ⟨1, 2, 1, 6⟩ := by
  rw [claim_c1_overlap_contribution ⟨1, 1, jsDateMs 2024 0 1, jsDateMs 2024 0 10⟩
    ⟨2, 1, jsDateMs 2024 0 5, jsDateMs 2024 0 15⟩ rfl (by decide)]
  decide

/-- Claim C9: the empty date token and every case variant of `"null"` are
mapped to today's date, not to a failure. -/
theorem claim_c9_null_defaults_today (env : JSEnv) (s : String)
    (h : s = "" ∨ jsToLowerCase s = "null") :
    parseDate env s = some env.todayMs := by
  unfold parseDate
  rw [if_pos h]

/-- Witness for C9 at the token `"NuLl"` under the fixed test clock. -/
theorem claim_c9_null_defaults_today_witness :
    parseDate testEnv "NuLl" = some 0 := by
  have h := claim_c9_null_defaults_today testEnv "NuLl" (Or.inr (by decide))
  simpa [testEnv] using h

/-! ## Date-format precedence -/

lemma not_space_of_isDigit {c : Char} (h : c.isDigit = true) :
    isJsSpaceChar c = false := by
  by_contra hcon
  have htrue : isJsSpaceChar c = true := by
    revert hcon; cases isJsSpaceChar c <;> simp
  simp only [isJsSpaceChar, Bool.or_eq_true, decide_eq_true_eq] at htrue
  simp only [or_assoc] at htrue
  rcases htrue with h' | h' | h' | h' | h' | h' | h' | h' <;>
    (subst h'; exact absurd h (by decide))

lemma dropWhile_eq_self_of_all {l : List Char}
    (h : l.all (fun c => !isJsSpaceChar c) = true) :
    l.dropWhile isJsSpaceChar = l := by
  cases l with
  | nil => rfl
  | cons x xs =>
    have hx : isJsSpaceChar x = false := by
      simpa using List.all_eq_true.mp h x (List.mem_cons_self x xs)
    simp [List.dropWhile_cons, hx]

lemma jsTrim_eq_self {s : String}
    (h : s.data.all (fun c => !isJsSpaceChar c) = true) : jsTrim s = s := by
  obtain ⟨l⟩ := s
  show String.mk (((l.dropWhile isJsSpaceChar).reverse.dropWhile isJsSpaceChar).reverse) = ⟨l⟩
  have h1 : l.dropWhile isJsSpaceChar = l := dropWhile_eq_self_of_all h
  have h2 : l.reverse.all (fun c => !isJsSpaceChar c) = true := by
    simpa using h
  rw [h1, dropWhile_eq_self_of_all h2, List.reverse_reverse]

/-- A slash-format token (pattern 1, `yyyy-MM-dd`) is parsed by the first
pattern directly — whatever numbers its components hold. -/
lemma parseDate_iso (env : JSEnv) (a b c d f g i j : Char)
    (ha : a.isDigit = true) (hb : b.isDigit = true) (hc : c.isDigit = true)
    (hd : d.isDigit = true) (hf : f.isDigit = true) (hg : g.isDigit = true)
    (hi : i.isDigit = true) (hj : j.isDigit = true) :
    parseDate env ⟨[a, b, c, d, '-', f, g, '-', i, j]⟩ =
      some (jsDateMs (digitVal a * 1000 + digitVal b * 100 + digitVal c * 10 + digitVal d)
        (digitVal f * 10 + digitVal g - 1) (digitVal i * 10 + digitVal j)) := by
  have hall : ([a, b, c, d, '-', f, g, '-', i, j]).all (fun x => !isJsSpaceChar x) = true := by
    simp [not_space_of_isDigit, ha, hb, hc, hd, hf, hg, hi, hj]
    decide
  simp only [parseDate]
  rw [if_neg]
  · rw [jsTrim_eq_self hall]
    have h1 : testISO ⟨[a, b, c, d, '-', f, g, '-', i, j]⟩ = true := by
      simp [testISO, ha, hb, hc, hd, hf, hg, hi, hj]
    have h2 : parseISO ⟨[a, b, c, d, '-', f, g, '-', i, j]⟩ =
        some (jsDateMs (digitVal a * 1000 + digitVal b * 100 + digitVal c * 10 + digitVal d)
          (digitVal f * 10 + digitVal g - 1) (digitVal i * 10 + digitVal j)) := by
      simp [parseISO, ha, hb, hc, hd, hf, hg, hi, hj]
    simp [runPatterns, datePatterns, h1, h2]
  · rintro (h | h)
    · exact absurd (congrArg String.data h) (by simp)
    · exact absurd (congrArg String.data h) (by simp [jsToLowerCase])

/-- A slash-separated token is taken by pattern 2 and read month-first
(`MM/dd/yyyy`) — whatever numbers its components hold. -/
lemma parseDate_slash (env : JSEnv) (a b d e g h i j : Char)
    (ha : a.isDigit = true) (hb : b.isDigit = true) (hd : d.isDigit = true)
    (he : e.isDigit = true) (hg : g.isDigit = true) (hh : h.isDigit = true)
    (hi : i.isDigit = true) (hj : j.isDigit = true) :
    parseDate env ⟨[a, b, '/', d, e, '/', g, h, i, j]⟩ =
      some (jsDateMs (digitVal g * 1000 + digitVal h * 100 + digitVal i * 10 + digitVal j)
        (digitVal a * 10 + digitVal b - 1) (digitVal d * 10 + digitVal e)) := by
  have hall : ([a, b, '/', d, e, '/', g, h, i, j]).all (fun x => !isJsSpaceChar x) = true := by
    simp [not_space_of_isDigit, ha, hb, hd, he, hg, hh, hi, hj]
    decide
  simp only [parseDate]
  rw [if_neg]
  · rw [jsTrim_eq_self hall]
    have h1 : testISO ⟨[a, b, '/', d, e, '/', g, h, i, j]⟩ = false := by
      simp [testISO, (by decide : ('/' : Char).isDigit = false)]
    have h2 : testSlash ⟨[a, b, '/', d, e, '/', g, h, i, j]⟩ = true := by
      simp [testSlash, ha, hb, hd, he, hg, hh, hi, hj]
    have h3 : parseSlashMDY ⟨[a, b, '/', d, e, '/', g, h, i, j]⟩ =
        some (jsDateMs (digitVal g * 1000 + digitVal h * 100 + digitVal i * 10 + digitVal j)
          (digitVal a * 10 + digitVal b - 1) (digitVal d * 10 + digitVal e)) := by
      simp [parseSlashMDY, ha, hb, hd, he, hg, hh, hi, hj]
    simp [runPatterns, datePatterns, h1, h2, h3]
  · rintro (hcon | hcon)
    · exact absurd (congrArg String.data hcon) (by simp)
    · exact absurd (congrArg String.data hcon) (by simp [jsToLowerCase])

/-- A dash-separated day-first token is taken by pattern 3 (`dd-MM-yyyy`)
— whatever numbers its components hold. -/
lemma parseDate_dash_dmy (env : JSEnv) (a b d e g h i j : Char)
    (ha : a.isDigit = true) (hb : b.isDigit = true) (hd : d.isDigit = true)
    (he : e.isDigit = true) (hg : g.isDigit = true) (hh : h.isDigit = true)
    (hi : i.isDigit = true) (hj : j.isDigit = true) :
    parseDate env ⟨[a, b, '-', d, e, '-', g, h, i, j]⟩ =
      some (jsDateMs (digitVal g * 1000 + digitVal h * 100 + digitVal i * 10 + digitVal j)
        (digitVal d * 10 + digitVal e - 1) (digitVal a * 10 + digitVal b)) := by
  have hall : ([a, b, '-', d, e, '-', g, h, i, j]).all (fun x => !isJsSpaceChar x) = true := by
    simp [not_space_of_isDigit, ha, hb, hd, he, hg, hh, hi, hj]
    decide
  simp only [parseDate]
  rw [if_neg]
  · rw [jsTrim_eq_self hall]
    have h1 : testISO ⟨[a, b, '-', d, e, '-', g, h, i, j]⟩ = false := by
      simp [testISO, (by decide : ('-' : Char).isDigit = false)]
    have h2 : testSlash ⟨[a, b, '-', d, e, '-', g, h, i, j]⟩ = false := by
      simp [testSlash]
    have h3 : testDashDMY ⟨[a, b, '-', d, e, '-', g, h, i, j]⟩ = true := by
      simp [testDashDMY, ha, hb, hd, he, hg, hh, hi, hj]
    have h4 : parseDashDMY ⟨[a, b, '-', d, e, '-', g, h, i, j]⟩ =
        some (jsDateMs (digitVal g * 1000 + digitVal h * 100 + digitVal i * 10 + digitVal j)
          (digitVal d * 10 + digitVal e - 1) (digitVal a * 10 + digitVal b)) := by
      simp [parseDashDMY, ha, hb, hd, he, hg, hh, hi, hj]
    simp [runPatterns, datePatterns, h1, h2, h3, h4]
  · rintro (hcon | hcon)
    · exact absurd (congrArg String.data hcon) (by simp)
    · exact absurd (congrArg String.data hcon) (by simp [jsToLowerCase])

/-- Any string accepted by the shared slash regex decomposes into its eight
digit characters. -/
lemma testSlash_shape {s : String} (h : testSlash s = true) :
    ∃ a b d e g h' i j : Char, a.isDigit = true ∧ b.isDigit = true ∧
      d.isDigit = true ∧ e.isDigit = true ∧ g.isDigit = true ∧
      h'.isDigit = true ∧ i.isDigit = true ∧ j.isDigit = true ∧
      s = ⟨[a, b, '/', d, e, '/', g, h', i, j]⟩ := by
  obtain ⟨l⟩ := s
  unfold testSlash at h
  split at h
  · next a b c d e f g h' i j heq =>
    simp only [Bool.and_eq_true, decide_eq_true_eq] at h
    obtain ⟨⟨⟨⟨⟨⟨⟨⟨⟨ha, hb⟩, hc⟩, hd⟩, he⟩, hf⟩, hg⟩, hh⟩, hi⟩, hj⟩ := h
    subst hc; subst hf
    exact ⟨a, b, d, e, g, h', i, j, ha, hb, hd, he, hg, hh, hi, hj,
      congrArg String.mk heq⟩
  · exact absurd h (by simp)

/-- Pattern 4 (`dd/MM/yyyy`) is unreachable: dropping it from the pattern
list never changes the outcome, because pattern 2 tests the same shape
earlier and always succeeds on it. -/
lemma runPatterns_take3 (s : String) :
    runPatterns datePatterns s = runPatterns (datePatterns.take 3) s := by
  by_cases hS : testSlash s = true
  · obtain ⟨a, b, d, e, g, h', i, j, ha, hb, hd, he, hg, hh, hi, hj, rfl⟩ :=
      testSlash_shape hS
    have h3 : parseSlashMDY ⟨[a, b, '/', d, e, '/', g, h', i, j]⟩ =
        some (jsDateMs (digitVal g * 1000 + digitVal h' * 100 + digitVal i * 10 + digitVal j)
          (digitVal a * 10 + digitVal b - 1) (digitVal d * 10 + digitVal e)) := by
      simp [parseSlashMDY, ha, hb, hd, he, hg, hh, hi, hj]
    simp [runPatterns, datePatterns, hS, h3]
  · have hS' : testSlash s = false := by
      revert hS; cases testSlash s <;> simp
    simp [runPatterns, datePatterns, hS']

/-- Counterexample to claim C4: the token `2024-13-05` matches pattern 1
with an out-of-range month, yet `parseDate` accepts it — the components
roll over to 2025-01-05 instead of falling through to the (here failing)
free-form fallback, which would have made the result `none`. -/
theorem claim_c4_counterexample :
    parseDate testEnv "2024-13-05" ≠ none ∧
    parseDate testEnv "2024-13-05" = some (jsDateMs 2025 0 5) ∧
    testEnv.freeParse "2024-13-05" = none := by
  refine ⟨?_, ?_, rfl⟩ <;> decide

/-- Claim C4 (amended): a trimmed token matching one of the recognized
patterns is always parsed successfully by the first matching pattern's
constructor call, with out-of-range month or day components normalized by
calendar roll-over rather than rejected; neither the fallback nor a
failure is ever reached for such tokens. -/
theorem claim_c4_pattern_rollover (env : JSEnv) :
    (∀ a b c d f g i j : Char, a.isDigit = true → b.isDigit = true →
      c.isDigit = true → d.isDigit = true → f.isDigit = true → g.isDigit = true →
      i.isDigit = true → j.isDigit = true →
      parseDate env ⟨[a, b, c, d, '-', f, g, '-', i, j]⟩ =
        some (jsDateMs (digitVal a * 1000 + digitVal b * 100 + digitVal c * 10 + digitVal d)
          (digitVal f * 10 + digitVal g - 1) (digitVal i * 10 + digitVal j))) ∧
    (∀ a b d e g h i j : Char, a.isDigit = true → b.isDigit = true →
      d.isDigit = true → e.isDigit = true → g.isDigit = true → h.isDigit = true →
      i.isDigit = true → j.isDigit = true →
      parseDate env ⟨[a, b, '/', d, e, '/', g, h, i, j]⟩ =
        some (jsDateMs (digitVal g * 1000 + digitVal h * 100 + digitVal i * 10 + digitVal j)
          (digitVal a * 10 + digitVal b - 1) (digitVal d * 10 + digitVal e))) ∧
    (∀ a b d e g h i j : Char, a.isDigit = true → b.isDigit = true →
      d.isDigit = true → e.isDigit = true → g.isDigit = true → h.isDigit = true →
      i.isDigit = true → j.isDigit = true →
      parseDate env ⟨[a, b, '-', d, e, '-', g, h, i, j]⟩ =
        some (jsDateMs (digitVal g * 1000 + digitVal h * 100 + digitVal i * 10 + digitVal j)
          (digitVal d * 10 + digitVal e - 1) (digitVal a * 10 + digitVal b))) := by
  refine ⟨?_, ?_, ?_⟩
  · intro a b c d f g i j ha hb hc hd hf hg hi hj
    exact parseDate_iso env a b c d f g i j ha hb hc hd hf hg hi hj
  · intro a b d e g h i j ha hb hd he hg hh hi hj
    exact parseDate_slash env a b d e g h i j ha hb hd he hg hh hi hj
  · intro a b d e g h i j ha hb hd he hg hh hi hj
    exact parseDate_dash_dmy env a b d e g h i j ha hb hd he hg hh hi hj

/-- Witness for the amended C4: month 13 and day 40 both roll over. -/
theorem claim_c4_pattern_rollover_witness :
    parseDate testEnv "2024-13-40" = some (jsDateMs 2024 12 40) := by
  have heq : "2024-13-40" = (⟨['2', '0', '2', '4', '-', '1', '3', '-', '4', '0']⟩ : String) := by
    decide
  have h := (claim_c4_pattern_rollover testEnv).1 '2' '0' '2' '4' '1' '3' '4' '0'
    (by decide) (by decide) (by decide) (by decide) (by decide) (by decide)
    (by decide) (by decide)
  rw [heq, h]
  decide

/-- Claim C5: a trimmed `\d\d/\d\d/\d\d\d\d` token is always read
month-first (pattern 2, `MM/dd/yyyy`), and the day-first slash pattern 4 is
unreachable: deleting it from `datePatterns` changes no result. -/
theorem claim_c5_slash_is_mdy :
    (∀ (env : JSEnv) (a b d e g h i j : Char), a.isDigit = true →
      b.isDigit = true → d.isDigit = true → e.isDigit = true →
      g.isDigit = true → h.isDigit = true → i.isDigit = true → j.isDigit = true →
      parseDate env ⟨[a, b, '/', d, e, '/', g, h, i, j]⟩ =
        some (jsDateMs (digitVal g * 1000 + digitVal h * 100 + digitVal i * 10 + digitVal j)
          (digitVal a * 10 + digitVal b - 1) (digitVal d * 10 + digitVal e))) ∧
    (∀ s, runPatterns datePatterns s = runPatterns (datePatterns.take 3) s) := by
  constructor
  · intro env a b d e g h i j ha hb hd he hg hh hi hj
    exact parseDate_slash env a b d e g h i j ha hb hd he hg hh hi hj
  · exact runPatterns_take3

/-- Witness for C5: `05/04/2024` is May 4, 2024 (month-first), not
April 5. -/
theorem claim_c5_slash_is_mdy_witness :
    parseDate testEnv "05/04/2024" = some (jsDateMs 2024 4 4) ∧
    jsDateMs 2024 4 4 ≠ jsDateMs 2024 3 5 := by
  constructor
  · have heq : "05/04/2024" = (⟨['0', '5', '/', '0', '4', '/', '2', '0', '2', '4']⟩ : String) := by
      decide
    have h := claim_c5_slash_is_mdy.1 testEnv '0' '5' '0' '4' '2' '0' '2' '4'
      (by decide) (by decide) (by decide) (by decide) (by decide) (by decide)
      (by decide) (by decide)
    rw [heq, h]
    decide
  · decide

/-- A total survives the `=== highestMaxScore` filter exactly when it is a
member that no other member exceeds. -/
lemma mem_pairMapTotalResult (totals : List PairTotalDays) (x : PairTotalDays) :
    x ∈ pairMapTotalResult totals ↔
      x ∈ totals ∧ ∀ y ∈ totals, y.totalDaysWorked ≤ x.totalDaysWorked := by
  unfold pairMapTotalResult highestMaxScore
  rw [List.mem_filter]
  simp only [decide_eq_true_eq]
  constructor
  · rintro ⟨hx, hmax⟩
    obtain ⟨-, hle⟩ := List.maximum_eq_coe_iff.mp hmax.symm
    refine ⟨hx, fun y hy => ?_⟩
    exact_mod_cast hle _ (List.mem_map_of_mem _ hy)
  · rintro ⟨hx, hall⟩
    refine ⟨hx, ?_⟩
    refine (List.maximum_eq_coe_iff.mpr ⟨List.mem_map_of_mem _ hx, ?_⟩).symm
    rintro a ha
    obtain ⟨y, hy, rfl⟩ := List.mem_map.mp ha
    exact_mod_cast hall y hy

/-- Claim C2: with a non-empty totals collection the selection keeps exactly
the per-project entries whose pair attains the maximum cumulative total
(all tied pairs included), and with an empty totals collection it keeps
nothing. -/
theorem claim_c2_top_selection (pm : List PairProjectDays) (totals : List PairTotalDays) :
    (totals = [] → selectPairs pm totals = []) ∧
    (∀ ppd, ppd ∈ selectPairs pm totals ↔
      ppd ∈ pm ∧ ∃ ptd ∈ totals, ptd.emp1 = ppd.emp1 ∧ ptd.emp2 = ppd.emp2 ∧
        ∀ y ∈ totals, y.totalDaysWorked ≤ ptd.totalDaysWorked) := by
  constructor
  · rintro rfl
    simp [selectPairs, pairMapTotalResult]
  · intro ppd
    unfold selectPairs
    rw [List.mem_filter, List.any_eq_true]
    constructor
    · rintro ⟨hpm, ptd, hptd, hmatch⟩
      rw [decide_eq_true_eq] at hmatch
      obtain ⟨hmem, hmax⟩ := (mem_pairMapTotalResult totals ptd).mp hptd
      exact ⟨hpm, ptd, hmem, hmatch.1, hmatch.2, hmax⟩
    · rintro ⟨hpm, ptd, hmem, h1, h2, hmax⟩
      refine ⟨hpm, ptd, (mem_pairMapTotalResult totals ptd).mpr ⟨hmem, hmax⟩, ?_⟩
      rw [decide_eq_true_eq]
      exact ⟨h1, h2⟩

/-- Witness for C2 on the worked example: the per-project entry of the
winning pair (1, 2) survives the selection. -/
theorem claim_c2_top_selection_witness :
    (⟨1, 2, 1, 6⟩ : PairProjectDays) ∈
      selectPairs [⟨1, 2, 1, 6⟩, ⟨1, 3, 2, 3⟩] [⟨1, 2, 6⟩, ⟨1, 3, 3⟩] := by
  refine ((claim_c2_top_selection [⟨1, 2, 1, 6⟩, ⟨1, 3, 2, 3⟩]
    [⟨1, 2, 6⟩, ⟨1, 3, 3⟩]).2 ⟨1, 2, 1, 6⟩).mpr ?_
  refine ⟨by decide, ⟨1, 2, 6⟩, by decide, by decide, by decide, ?_⟩
  decide

/-! ## Fail-fast validation -/

/-- A batch containing a well-sized invalid row is rejected whole. -/
lemma validateRows_error (env : JSEnv) (data : List (List String))
    (h : ∃ row ∈ data, 4 ≤ row.length ∧ badRow env row) :
    validateRows env data = .error "Invalid data format in CSV." := by
  induction data with
  | nil =>
    obtain ⟨row, hmem, -⟩ := h
    exact absurd hmem (List.not_mem_nil row)
  | cons row rest ih =>
    obtain ⟨r, hr, hlen, hbad⟩ := h
    rw [validateRows]
    rcases List.mem_cons.mp hr with rfl | hr'
    · rw [if_neg (by omega)]
      cases h0 : jsNumber (r.getD 0 "") <;>
        cases h1 : jsNumber (r.getD 1 "") <;>
        cases h2 : parseDate env (r.getD 2 "") <;>
        cases h3 : parseDate env (r.getD 3 "") <;>
        first
          | rfl
          | (unfold badRow at hbad; rw [h0, h1, h2, h3] at hbad; simp at hbad)
    · have hrest := ih ⟨r, hr', hlen, hbad⟩
      by_cases hshort : row.length < 4
      · rw [if_pos hshort]; exact hrest
      · rw [if_neg hshort]
        cases h0 : jsNumber (row.getD 0 "") <;>
          cases h1 : jsNumber (row.getD 1 "") <;>
          cases h2 : parseDate env (row.getD 2 "") <;>
          cases h3 : parseDate env (row.getD 3 "") <;>
          simp [hrest, Except.map]

/-- A single well-formed row validates to its record. -/
lemma validateRows_single_ok (env : JSEnv) (row : List String)
    (e p df dt : Int) (hlen : 4 ≤ row.length)
    (h0 : jsNumber (row.getD 0 "") = some e) (h1 : jsNumber (row.getD 1 "") = some p)
    (h2 : parseDate env (row.getD 2 "") = some df)
    (h3 : parseDate env (row.getD 3 "") = some dt) :
    validateRows env [row] = .ok [⟨e, p, df, dt⟩] := by
  rw [validateRows, if_neg (by omega), h0, h1, h2, h3]
  rfl

/-- A rejected batch surfaces the error through `processData`. -/
lemma processData_error (env : JSEnv) (data : List (List String))
    (h : ∃ row ∈ data, 4 ≤ row.length ∧ badRow env row) :
    processData env data = .error "Invalid data format in CSV." := by
  unfold processData
  rw [validateRows_error env data h]
  rfl

/-- Claim C3: any batch containing a row of length at least 4 whose id
tokens are non-numeric or whose date tokens fail to normalize is rejected
whole — `processData` reports the error and produces no rows. -/
theorem claim_c3_fail_fast (env : JSEnv) (data : List (List String))
    (h : ∃ row ∈ data, 4 ≤ row.length ∧ badRow env row) :
    processData env data = .error "Invalid data format in CSV." :=
  processData_error env data h

/-- Witness for C3: one malformed row poisons a batch whose other rows are
valid. -/
theorem claim_c3_fail_fast_witness :
    processData testEnv
      [["1", "1", "2024-01-01", "2024-01-10"],
       ["abc", "1", "2024-01-05", "2024-01-15"],
       ["3", "2", "2024-02-03", "2024-02-10"]] =
      .error "Invalid data format in CSV." := by
  refine claim_c3_fail_fast testEnv _
    ⟨["abc", "1", "2024-01-05", "2024-01-15"], by decide, by decide, ?_⟩
  left
  decide

/-- Claim C6: a row with at least 4 tokens whose employee-id or project-id
token is NaN under `Number` makes the whole batch fail; and when both id
tokens and both dates convert, the row is accepted with those values as
employee and project ids. -/
theorem claim_c6_id_validation :
    (∀ (env : JSEnv) (data : List (List String)) (row : List String),
      row ∈ data → 4 ≤ row.length →
      (jsNumber (row.getD 0 "") = none ∨ jsNumber (row.getD 1 "") = none) →
      processData env data = .error "Invalid data format in CSV.") ∧
    (∀ (env : JSEnv) (row : List String) (e p df dt : Int), 4 ≤ row.length →
      jsNumber (row.getD 0 "") = some e → jsNumber (row.getD 1 "") = some p →
      parseDate env (row.getD 2 "") = some df → parseDate env (row.getD 3 "") = some dt →
      validateRows env [row] = .ok [⟨e, p, df, dt⟩]) := by
  constructor
  · intro env data row hmem hlen hbad
    refine processData_error env data ⟨row, hmem, hlen, ?_⟩
    rcases hbad with h | h
    · exact Or.inl h
    · exact Or.inr (Or.inl h)
  · exact validateRows_single_ok

/-! ## Aggregation: symmetry and order invariance -/

/-- The loop body is symmetric in its two records. -/
lemma pairContribution_comm (p q : EmployeeRecord) :
    pairContribution p q = pairContribution q p := by
  rw [pairContribution_eq, pairContribution_eq]
  by_cases h : p.ProjectID = q.ProjectID ∧ p.EmpID ≠ q.EmpID
  · have h' : q.ProjectID = p.ProjectID ∧ q.EmpID ≠ p.EmpID := ⟨h.1.symm, Ne.symm h.2⟩
    rw [if_pos h, if_pos h', h.1,
      max_comm q.DateFrom p.DateFrom, min_comm q.DateTo p.DateTo,
      min_comm q.EmpID p.EmpID, max_comm q.EmpID p.EmpID]
  · rw [if_neg h, if_neg (fun hc => h ⟨hc.1.symm, Ne.symm hc.2⟩)]

/-- Three blocks commute under permutation: `A ++ (B ++ C) ~ B ++ (A ++ C)`. -/
lemma perm_append_middle {α : Type} (A B C : List α) :
    (A ++ (B ++ C)).Perm (B ++ (A ++ C)) := by
  rw [← List.append_assoc, ← List.append_assoc]
  exact List.perm_append_comm.append_right C

/-- Permuting the records permutes the multiset of loop contributions. -/
lemma contributions_perm {rs rs' : List EmployeeRecord} (h : rs.Perm rs') :
    (contributions rs).Perm (contributions rs') := by
  induction h with
  | nil => exact List.Perm.refl _
  | cons x h ih =>
    exact ((h.filterMap _).append ih)
  | swap x y l =>
    show ((x :: l).filterMap (fun q => pairContribution y q) ++
        (l.filterMap (fun q => pairContribution x q) ++ contributions l)).Perm
      ((y :: l).filterMap (fun q => pairContribution x q) ++
        (l.filterMap (fun q => pairContribution y q) ++ contributions l))
    rw [List.filterMap_cons, List.filterMap_cons, pairContribution_comm y x]
    cases pairContribution x y with
    | none => exact perm_append_middle _ _ _
    | some c =>
      simp only [List.cons_append]
      exact (perm_append_middle _ _ _).cons c
  | trans h1 h2 ih1 ih2 => exact ih1.trans ih2

lemma alookup_append_of_isSome {β : Type} {m1 : List (String × β)} (m2 : List (String × β))
    {k : String} (h : (alookup m1 k).isSome = true) :
    alookup (m1 ++ m2) k = alookup m1 k := by
  induction m1 with
  | nil => simp [alookup] at h
  | cons kv t ih =>
    obtain ⟨a, b⟩ := kv
    by_cases hak : a = k
    · simp [alookup, hak]
    · simp only [alookup, hak, if_false, List.cons_append] at h ⊢
      exact ih h

lemma alookup_append_of_none {β : Type} {m1 : List (String × β)} (m2 : List (String × β))
    {k : String} (h : alookup m1 k = none) :
    alookup (m1 ++ m2) k = alookup m2 k := by
  induction m1 with
  | nil => rfl
  | cons kv t ih =>
    obtain ⟨a, b⟩ := kv
    by_cases hak : a = k
    · simp [alookup, hak] at h
    · simp only [alookup, hak, if_false, List.cons_append] at h ⊢
      exact ih h

lemma alookup_mapEdit {β : Type} (m : List (String × β)) (key : String) (bump : β → β)
    (k : String) :
    alookup (m.map (fun kv => if kv.1 = key then (kv.1, bump kv.2) else kv)) k =
      if k = key then (alookup m k).map bump else alookup m k := by
  induction m with
  | nil => by_cases h : k = key <;> simp [alookup, h]
  | cons kv t ih =>
    obtain ⟨a, b⟩ := kv
    have editFun_cons : (fun kv : String × β => if kv.1 = key then (kv.1, bump kv.2) else kv) (a, b) =
        if a = key then (a, bump b) else (a, b) := rfl
    simp only [List.map_cons, editFun_cons]
    by_cases hak : a = key
    · rw [if_pos hak]
      by_cases hk : a = k
      · have hkey : k = key := by rw [← hk, hak]
        simp [alookup, hk, hkey]
      · have hkey' : ¬k = key := fun h => hk (by rw [hak, ← h])
        simp [alookup, hk, hkey', ih]
    · rw [if_neg hak]
      by_cases hk : a = k
      · have hkey' : ¬k = key := fun h => hak (by rw [hk, h])
        simp [alookup, hk, hkey']
      · simp [alookup, hk, ih]

/-- Full characterization of a `Map` upsert as seen through lookups. -/
lemma alookup_mapUpsert {β : Type} (m : List (String × β)) (key : String) (bump : β → β)
    (fresh : β) (k : String) :
    alookup (mapUpsert m key bump fresh) k =
      if k = key then some (((alookup m k).map bump).getD fresh) else alookup m k := by
  unfold mapUpsert
  by_cases hs : (alookup m key).isSome = true
  · rw [if_pos hs, alookup_mapEdit]
    by_cases hk : k = key
    · subst hk
      obtain ⟨v, hv⟩ := Option.isSome_iff_exists.mp hs
      simp [hv]
    · simp [hk]
  · rw [if_neg hs]
    have hnone : alookup m key = none := Option.not_isSome_iff_eq_none.mp (by simpa using hs)
    by_cases hk : k = key
    · subst hk
      rw [alookup_append_of_none _ hnone, hnone]
      simp [alookup]
    · cases hmk : alookup m k with
      | some v =>
        rw [alookup_append_of_isSome _ (by simp [hmk])]
        simp [hmk, hk]
      | none =>
        rw [alookup_append_of_none _ hmk]
        have hk' : ¬key = k := fun h => hk h.symm
        simp [alookup, hk, hk', hmk]

/-- One `pairMap` update, seen through the day-count observation. -/
lemma projDays_applyProj (m : List (String × PairProjectDays)) (c : Contribution)
    (k : String) :
    projDays (applyProj m c) k =
      if k = projKey c then some ((projDays m k).getD 0 + c.days) else projDays m k := by
  unfold projDays applyProj
  rw [alookup_mapUpsert]
  by_cases hk : k = projKey c
  · subst hk
    cases halk : alookup m (projKey c) with
    | none => simp [halk]
    | some v => simp [halk]
  · simp [hk]

/-- One `pairMapTotal` update, seen through the day-count observation. -/
lemma totDays_applyTot (m : List (String × PairTotalDays)) (c : Contribution)
    (k : String) :
    totDays (applyTot m c) k =
      if k = totKey c then some ((totDays m k).getD 0 + c.days) else totDays m k := by
  unfold totDays applyTot
  rw [alookup_mapUpsert]
  by_cases hk : k = totKey c
  · subst hk
    cases halk : alookup m (totKey c) with
    | none => simp [halk]
    | some v => simp [halk]
  · simp [hk]

/-- The `pairMap` day count after the whole loop: present exactly when the
base map or some contribution carries the key, holding the base amount plus
the key's contribution total. -/
lemma projDays_foldl (cs : List Contribution) (m : List (String × PairProjectDays))
    (k : String) :
    projDays (cs.foldl applyProj m) k =
      if (projDays m k).isSome = true ∨ ∃ c ∈ cs, projKey c = k then
        some ((projDays m k).getD 0 + sumKeyProj k cs)
      else none := by
  induction cs generalizing m with
  | nil =>
    cases h : projDays m k with
    | none => simp [h, sumKeyProj]
    | some v => simp [h, sumKeyProj]
  | cons c t ih =>
    rw [List.foldl_cons, ih, projDays_applyProj]
    by_cases hk : k = projKey c
    · subst hk
      have hsum : sumKeyProj (projKey c) (c :: t) = c.days + sumKeyProj (projKey c) t := by
        simp [sumKeyProj]
      have hex : ∃ c' ∈ c :: t, projKey c' = projKey c :=
        ⟨c, List.mem_cons_self c t, rfl⟩
      rw [if_pos rfl, hsum, if_pos (Or.inr hex)]
      simp only [Option.isSome_some, eq_self_iff_true, true_or, if_true, Option.getD_some]
      exact congrArg some (add_assoc _ _ _)
    · have hsum : sumKeyProj k (c :: t) = sumKeyProj k t := by
        have : ¬projKey c = k := fun h => hk h.symm
        simp [sumKeyProj, this]
      have hex : (∃ c' ∈ c :: t, projKey c' = k) ↔ ∃ c' ∈ t, projKey c' = k := by
        constructor
        · rintro ⟨c', hc', hck⟩
          rcases List.mem_cons.mp hc' with rfl | hmem
          · exact absurd hck.symm hk
          · exact ⟨c', hmem, hck⟩
        · rintro ⟨c', hc', hck⟩
          exact ⟨c', List.mem_cons_of_mem c hc', hck⟩
      rw [if_neg hk, hsum]
      simp only [hex]

/-- The `pairMapTotal` day count after the whole loop. -/
lemma totDays_foldl (cs : List Contribution) (m : List (String × PairTotalDays))
    (k : String) :
    totDays (cs.foldl applyTot m) k =
      if (totDays m k).isSome = true ∨ ∃ c ∈ cs, totKey c = k then
        some ((totDays m k).getD 0 + sumKeyTot k cs)
      else none := by
  induction cs generalizing m with
  | nil =>
    cases h : totDays m k with
    | none => simp [h, sumKeyTot]
    | some v => simp [h, sumKeyTot]
  | cons c t ih =>
    rw [List.foldl_cons, ih, totDays_applyTot]
    by_cases hk : k = totKey c
    · subst hk
      have hsum : sumKeyTot (totKey c) (c :: t) = c.days + sumKeyTot (totKey c) t := by
        simp [sumKeyTot]
      have hex : ∃ c' ∈ c :: t, totKey c' = totKey c :=
        ⟨c, List.mem_cons_self c t, rfl⟩
      rw [if_pos rfl, hsum, if_pos (Or.inr hex)]
      simp only [Option.isSome_some, eq_self_iff_true, true_or, if_true, Option.getD_some]
      exact congrArg some (add_assoc _ _ _)
    · have hsum : sumKeyTot k (c :: t) = sumKeyTot k t := by
        have : ¬totKey c = k := fun h => hk h.symm
        simp [sumKeyTot, this]
      have hex : (∃ c' ∈ c :: t, totKey c' = k) ↔ ∃ c' ∈ t, totKey c' = k := by
        constructor
        · rintro ⟨c', hc', hck⟩
          rcases List.mem_cons.mp hc' with rfl | hmem
          · exact absurd hck.symm hk
          · exact ⟨c', hmem, hck⟩
        · rintro ⟨c', hc', hck⟩
          exact ⟨c', List.mem_cons_of_mem c hc', hck⟩
      rw [if_neg hk, hsum]
      simp only [hex]

/-- The paired fold of `processData` splits into two independent folds. -/
lemma buildMaps_eq (cs : List Contribution) :
    buildMaps cs = ⟨cs.foldl applyProj [], cs.foldl applyTot []⟩ := by
  have h : ∀ (a : List (String × PairProjectDays)) (b : List (String × PairTotalDays)),
      cs.foldl (fun ms c => PairMaps.mk (applyProj ms.pairMap c) (applyTot ms.pairMapTotal c))
          (PairMaps.mk a b) =
        PairMaps.mk (cs.foldl applyProj a) (cs.foldl applyTot b) := by
    induction cs with
    | nil => intro a b; rfl
    | cons c t ih =>
      intro a b
      rw [List.foldl_cons, List.foldl_cons, List.foldl_cons]
      exact ih (applyProj a c) (applyTot b c)
  exact h [] []

/-- Permuting the contributions leaves every `pairMap` day count alone. -/
lemma projDays_build_perm {cs cs' : List Contribution} (h : cs.Perm cs') (k : String) :
    projDays (cs.foldl applyProj []) k = projDays (cs'.foldl applyProj []) k := by
  rw [projDays_foldl, projDays_foldl]
  have hsum : sumKeyProj k cs = sumKeyProj k cs' := by
    unfold sumKeyProj
    exact ((h.filter _).map _).sum_eq
  have hex : (∃ c ∈ cs, projKey c = k) ↔ ∃ c ∈ cs', projKey c = k := by
    constructor <;> rintro ⟨c, hc, hck⟩
    · exact ⟨c, h.mem_iff.mp hc, hck⟩
    · exact ⟨c, h.mem_iff.mpr hc, hck⟩
  rw [hsum]
  simp only [hex]

/-- Permuting the contributions leaves every `pairMapTotal` day count alone. -/
lemma totDays_build_perm {cs cs' : List Contribution} (h : cs.Perm cs') (k : String) :
    totDays (cs.foldl applyTot []) k = totDays (cs'.foldl applyTot []) k := by
  rw [totDays_foldl, totDays_foldl]
  have hsum : sumKeyTot k cs = sumKeyTot k cs' := by
    unfold sumKeyTot
    exact ((h.filter _).map _).sum_eq
  have hex : (∃ c ∈ cs, totKey c = k) ↔ ∃ c ∈ cs', totKey c = k := by
    constructor <;> rintro ⟨c, hc, hck⟩
    · exact ⟨c, h.mem_iff.mp hc, hck⟩
    · exact ⟨c, h.mem_iff.mpr hc, hck⟩
  rw [hsum]
  simp only [hex]

/-- Permuting the input records changes no aggregated day count, in either
map. -/
lemma maps_lookup_perm {rs rs' : List EmployeeRecord} (h : rs.Perm rs') (k : String) :
    projDays (buildMaps (contributions rs)).pairMap k =
      projDays (buildMaps (contributions rs')).pairMap k ∧
    totDays (buildMaps (contributions rs)).pairMapTotal k =
      totDays (buildMaps (contributions rs')).pairMapTotal k := by
  have hperm := contributions_perm h
  rw [buildMaps_eq, buildMaps_eq]
  exact ⟨projDays_build_perm hperm k, totDays_build_perm hperm k⟩

/-- Claim C7: for every permutation of the input record sequence, every
aggregated `totalDaysWorked` value — per (pair, project) key and per pair
key — is unchanged. -/
theorem claim_c7_order_invariance (rs rs' : List EmployeeRecord)
    (h : rs.Perm rs') (k : String) :
    projDays (buildMaps (contributions rs)).pairMap k =
      projDays (buildMaps (contributions rs')).pairMap k ∧
    totDays (buildMaps (contributions rs)).pairMapTotal k =
      totDays (buildMaps (contributions rs')).pairMapTotal k :=
  maps_lookup_perm h k

/-- Witness for C7: reversing a two-record batch leaves the aggregated
counts under the key `1-2-1` untouched. -/
theorem claim_c7_order_invariance_witness :
    projDays (buildMaps (contributions
        [⟨1, 1, 0, 5 * msPerDay⟩, ⟨2, 1, 3 * msPerDay, 9 * msPerDay⟩])).pairMap "1-2-1" =
      projDays (buildMaps (contributions
        [⟨2, 1, 3 * msPerDay, 9 * msPerDay⟩, ⟨1, 1, 0, 5 * msPerDay⟩])).pairMap "1-2-1" ∧
    totDays (buildMaps (contributions
        [⟨1, 1, 0, 5 * msPerDay⟩, ⟨2, 1, 3 * msPerDay, 9 * msPerDay⟩])).pairMapTotal "1-2" =
      totDays (buildMaps (contributions
        [⟨2, 1, 3 * msPerDay, 9 * msPerDay⟩, ⟨1, 1, 0, 5 * msPerDay⟩])).pairMapTotal "1-2" := by
  constructor
  · exact (claim_c7_order_invariance
      [⟨1, 1, 0, 5 * msPerDay⟩, ⟨2, 1, 3 * msPerDay, 9 * msPerDay⟩]
      [⟨2, 1, 3 * msPerDay, 9 * msPerDay⟩, ⟨1, 1, 0, 5 * msPerDay⟩]
      (by decide) "1-2-1").1
  · exact (claim_c7_order_invariance
      [⟨1, 1, 0, 5 * msPerDay⟩, ⟨2, 1, 3 * msPerDay, 9 * msPerDay⟩]
      [⟨2, 1, 3 * msPerDay, 9 * msPerDay⟩, ⟨1, 1, 0, 5 * msPerDay⟩]
      (by decide) "1-2").2

/-- Every contribution carries a strictly ordered pair. -/
lemma pairContribution_emp_lt {p q : EmployeeRecord} {c : Contribution}
    (h : pairContribution p q = some c) : c.emp1 < c.emp2 := by
  rw [pairContribution_eq] at h
  split_ifs at h with h1 h2
  injection h with h'
  subst h'
  exact min_lt_max.mpr h1.2

lemma contributions_emp_lt (rs : List EmployeeRecord) :
    ∀ c ∈ contributions rs, c.emp1 < c.emp2 := by
  induction rs with
  | nil => intro c hc; exact absurd hc (List.not_mem_nil c)
  | cons r t ih =>
    intro c hc
    rcases List.mem_append.mp hc with hin | hin
    · obtain ⟨q, -, hq⟩ := List.mem_filterMap.mp hin
      exact pairContribution_emp_lt hq
    · exact ih c hin

/-- The `pairMap` fold preserves strict pair ordering of every entry. -/
lemma foldl_applyProj_emp_lt (cs : List Contribution)
    (m : List (String × PairProjectDays))
    (hm : ∀ kv ∈ m, kv.2.emp1 < kv.2.emp2) (hc : ∀ c ∈ cs, c.emp1 < c.emp2) :
    ∀ kv ∈ cs.foldl applyProj m, kv.2.emp1 < kv.2.emp2 := by
  induction cs generalizing m with
  | nil => simpa using hm
  | cons c t ih =>
    intro kv hkv
    rw [List.foldl_cons] at hkv
    refine ih (applyProj m c) ?_ (fun c' hc' => hc c' (List.mem_cons_of_mem c hc')) kv hkv
    intro kv' hkv'
    unfold applyProj mapUpsert at hkv'
    by_cases hs : (alookup m (projKey c)).isSome = true
    · rw [if_pos hs] at hkv'
      obtain ⟨kv'', hkv'', heq⟩ := List.mem_map.mp hkv'
      by_cases hkey : kv''.1 = projKey c
      · rw [if_pos hkey] at heq
        rw [← heq]
        exact hm kv'' hkv''
      · rw [if_neg hkey] at heq
        rw [← heq]
        exact hm kv'' hkv''
    · rw [if_neg hs] at hkv'
      rcases List.mem_append.mp hkv' with hin | hin
      · exact hm kv' hin
      · rw [List.mem_singleton.mp hin]
        exact hc c (List.mem_cons_self c t)

/-- The `pairMapTotal` fold preserves strict pair ordering of every
entry. -/
lemma foldl_applyTot_emp_lt (cs : List Contribution)
    (m : List (String × PairTotalDays))
    (hm : ∀ kv ∈ m, kv.2.emp1 < kv.2.emp2) (hc : ∀ c ∈ cs, c.emp1 < c.emp2) :
    ∀ kv ∈ cs.foldl applyTot m, kv.2.emp1 < kv.2.emp2 := by
  induction cs generalizing m with
  | nil => simpa using hm
  | cons c t ih =>
    intro kv hkv
    rw [List.foldl_cons] at hkv
    refine ih (applyTot m c) ?_ (fun c' hc' => hc c' (List.mem_cons_of_mem c hc')) kv hkv
    intro kv' hkv'
    unfold applyTot mapUpsert at hkv'
    by_cases hs : (alookup m (totKey c)).isSome = true
    · rw [if_pos hs] at hkv'
      obtain ⟨kv'', hkv'', heq⟩ := List.mem_map.mp hkv'
      by_cases hkey : kv''.1 = totKey c
      · rw [if_pos hkey] at heq
        rw [← heq]
        exact hm kv'' hkv''
      · rw [if_neg hkey] at heq
        rw [← heq]
        exact hm kv'' hkv''
    · rw [if_neg hs] at hkv'
      rcases List.mem_append.mp hkv' with hin | hin
      · exact hm kv' hin
      · rw [List.mem_singleton.mp hin]
        exact hc c (List.mem_cons_self c t)

/-- Claim C8: every aggregated entry (in both maps) is canonically ordered
with `emp1 < emp2`; the loop body is insensitive to which of the two
assignments comes first; and swapping two adjacent input assignments
changes no aggregated day count. -/
theorem claim_c8_canonical_ordering :
    (∀ rs : List EmployeeRecord,
      ∀ kv ∈ (buildMaps (contributions rs)).pairMap, kv.2.emp1 < kv.2.emp2) ∧
    (∀ rs : List EmployeeRecord,
      ∀ kv ∈ (buildMaps (contributions rs)).pairMapTotal, kv.2.emp1 < kv.2.emp2) ∧
    (∀ p q : EmployeeRecord, pairContribution p q = pairContribution q p) ∧
    (∀ (rs₁ rs₂ : List EmployeeRecord) (p q : EmployeeRecord) (k : String),
      projDays (buildMaps (contributions (rs₁ ++ p :: q :: rs₂))).pairMap k =
        projDays (buildMaps (contributions (rs₁ ++ q :: p :: rs₂))).pairMap k ∧
      totDays (buildMaps (contributions (rs₁ ++ p :: q :: rs₂))).pairMapTotal k =
        totDays (buildMaps (contributions (rs₁ ++ q :: p :: rs₂))).pairMapTotal k) := by
  refine ⟨?_, ?_, pairContribution_comm, ?_⟩
  · intro rs kv hkv
    rw [buildMaps_eq] at hkv
    exact foldl_applyProj_emp_lt _ [] (by simp) (contributions_emp_lt rs) kv hkv
  · intro rs kv hkv
    rw [buildMaps_eq] at hkv
    exact foldl_applyTot_emp_lt _ [] (by simp) (contributions_emp_lt rs) kv hkv
  · intro rs₁ rs₂ p q k
    exact maps_lookup_perm ((List.Perm.swap q p rs₂).append_left rs₁) k

/-- Witness for C8: concrete entries are low-high ordered and a concrete
swapped pair contributes identically. -/
theorem claim_c8_canonical_ordering_witness :
    ((1 : Int) < 2) ∧
    pairContribution ⟨2, 7, 0, 4 * msPerDay⟩ ⟨1, 7, 2 * msPerDay, 6 * msPerDay⟩ =
      pairContribution ⟨1, 7, 2 * msPerDay, 6 * msPerDay⟩ ⟨2, 7, 0, 4 * msPerDay⟩ := by
  constructor
  · exact claim_c8_canonical_ordering.1 [⟨1, 1, 0, 0⟩, ⟨2, 1, 0, 0⟩]
      ("1-2-1", ⟨1, 2, 1, 1⟩) (by decide)
  · exact claim_c8_canonical_ordering.2.2.1 ⟨2, 7, 0, 4 * msPerDay⟩
      ⟨1, 7, 2 * msPerDay, 6 * msPerDay⟩

/-! ## The `part_000` variant against App.tsx -/

lemma validateRowsV0_eq (env : JSEnv) (data : List (List String)) :
    validateRowsV0 env data = validateRows env data := by
  induction data with
  | nil => rfl
  | cons row rest ih =>
    rw [validateRowsV0, validateRows]
    by_cases hshort : row.length < 4
    · rw [if_pos hshort, if_pos hshort, ih]
    · rw [if_neg hshort, if_neg hshort]
      cases jsNumber (row.getD 0 "") <;> cases jsNumber (row.getD 1 "") <;>
        cases parseDate env (row.getD 2 "") <;> cases parseDate env (row.getD 3 "") <;>
        simp [ih]

lemma pairContributionV0_eq (p q : EmployeeRecord) :
    pairContributionV0 p q = pairContribution p q := rfl

lemma contributionsV0_eq (rs : List EmployeeRecord) :
    contributionsV0 rs = contributions rs := by
  induction rs with
  | nil => rfl
  | cons r t ih =>
    show t.filterMap (fun q => pairContributionV0 r q) ++ contributionsV0 t =
      t.filterMap (fun q => pairContribution r q) ++ contributions t
    rw [ih]
    rfl

/-- Claim C10: the earlier variant (`part_000`) computes exactly the
per-project aggregation of the current `processData` — the two differ only
in the final top-pair filtering step. -/
theorem claim_c10_v0_refinement (env : JSEnv) (data : List (List String)) :
    processDataV0 env data = (processData env data).map ProcessResult.pairMap := by
  unfold processDataV0 processData
  rw [validateRowsV0_eq]
  cases h : validateRows env data with
  | error e => rfl
  | ok records =>
    simp only [Except.map]
    rw [contributionsV0_eq, buildMaps_eq]
    rfl

/-- Witness for C6: the non-numeric id `"x7"` fails a batch, while the
numeric tokens of a clean row become its ids. -/
theorem claim_c6_id_validation_witness :
    processData testEnv [["5", "x7", "2024-01-01", "2024-01-02"]] =
        .error "Invalid data format in CSV." ∧
      validateRows testEnv [["7", "9", "2024-03-01", "2024-03-02"]] =
        .ok [⟨7, 9, jsDateMs 2024 2 1, jsDateMs 2024 2 2⟩] := by
  constructor
  · exact claim_c6_id_validation.1 testEnv _ ["5", "x7", "2024-01-01", "2024-01-02"]
      (by decide) (by decide) (Or.inr (by decide))
  · exact claim_c6_id_validation.2 testEnv ["7", "9", "2024-03-01", "2024-03-02"]
      7 9 (jsDateMs 2024 2 1) (jsDateMs 2024 2 2) (by decide) (by decide) (by decide)
      (by decide) (by decide)

end Employees
